import Mathlib

/-!
Verification of the PNG decoder core of `png-viewer`.

The definitions below are a shallow embedding of the decoder found in
`src/parse.rs` (top-level `render`, `Renderer::new`, `Renderer::filter`,
`Renderer::render`) and `src/render/chunks.rs` (chunk framing and the
`IHDR`/`PLTE`/`IDAT`/`IEND` body parsers, `Colors`).  Bytes are modelled as
`Nat` (with `% 256` wherever the Rust code wraps), byte strings as `List Nat`,
fallible code as `Except Error`, and code that can panic as the three-valued
`Outcome`.  The `f32` colour channels are modelled exactly over `ℚ`; every
channel value the claims touch is produced by an exact division, so no
floating-point rounding is abstracted away where it matters.

The external inflate stream (`flate2::ZlibDecoder`) and the iced drawing
surface are library boundaries: the decompressor is abstracted as a caller
supplied sink, and drawing is modelled by recording `(x, y, colour)` draw
calls.
-/

namespace PngViewer

/-- `BitDepth` from `src/render/chunks.rs`. -/
inductive BitDepth where
  | one
  | two
  | four
  | eight
  | sixteen
deriving DecidableEq

/-- The `repr(u8)` value of a `BitDepth` (used in error payloads). -/
def BitDepth.toByte : BitDepth → Nat
  | .one => 1
  | .two => 2
  | .four => 4
  | .eight => 8
  | .sixteen => 16

/-- `ColorType` from `src/render/chunks.rs`. -/
inductive ColorType where
  | grayScale
  | rgb
  | palette
  | grayScaleAlpha
  | rgbAlpha
deriving DecidableEq

/-- The `repr(u8)` value of a `ColorType`. -/
def ColorType.toByte : ColorType → Nat
  | .grayScale => 0
  | .rgb => 2
  | .palette => 3
  | .grayScaleAlpha => 4
  | .rgbAlpha => 6

/-- `Interlace` from `src/render/chunks.rs`. -/
inductive Interlace where
  | none
  | adam7
deriving DecidableEq

/-- The error enum from `src/render/error.rs`.  The `NomFailed` payload (a hex
dump of nearby input and a nom `ErrorKind`) is debugging information only and
is dropped; `UnknownCriticalChunk`'s `String` payload is modelled as the list
of (upper-cased) tag bytes. -/
inductive Error where
  | unknownErr
  | nomFailed
  | unknownCriticalChunk (ty : List Nat)
  | invalidBitDepth (b : Nat)
  | invalidColorType (b : Nat)
  | invalidBitColorCombo (bd ct : Nat)
  | invalidInterlace (b : Nat)
  | invalidPaletteSize (len : Nat)
  | invalidFilterType (b : Nat)
  | missingCritical (s : String)
  | invalidIEnd
  | duplicateIhdr
deriving DecidableEq

/-- `impl TryFrom<u8> for BitDepth` in `src/render/chunks.rs`. -/
def BitDepth.tryFrom (value : Nat) : Except Error BitDepth :=
  match value with
  | 1 => .ok .one
  | 2 => .ok .two
  | 4 => .ok .four
  | 8 => .ok .eight
  | 16 => .ok .sixteen
  | _ => .error (.invalidBitDepth value)

/-- `impl TryFrom<u8> for ColorType` in `src/render/chunks.rs`. -/
def ColorType.tryFrom (value : Nat) : Except Error ColorType :=
  match value with
  | 0 => .ok .grayScale
  | 2 => .ok .rgb
  | 3 => .ok .palette
  | 4 => .ok .grayScaleAlpha
  | 6 => .ok .rgbAlpha
  | _ => .error (.invalidColorType value)

/-- `impl TryFrom<u8> for Interlace` in `src/render/chunks.rs`. -/
def Interlace.tryFrom (value : Nat) : Except Error Interlace :=
  match value with
  | 0 => .ok .none
  | 1 => .ok .adam7
  | _ => .error (.invalidInterlace value)

/-- `FilterType` from `src/parse.rs`. -/
inductive FilterType where
  | none
  | sub
  | up
  | average
  | paeth
deriving DecidableEq

/-- The `repr(u8)` value of a `FilterType`. -/
def FilterType.code : FilterType → Nat
  | .none => 0
  | .sub => 1
  | .up => 2
  | .average => 3
  | .paeth => 4

/-- `impl TryFrom<u8> for FilterType` in `src/parse.rs`. -/
def FilterType.tryFrom (value : Nat) : Except Error FilterType :=
  match value with
  | 0 => .ok .none
  | 1 => .ok .sub
  | 2 => .ok .up
  | 3 => .ok .average
  | 4 => .ok .paeth
  | _ => .error (.invalidFilterType value)

/-- An `iced::Color`: four `f32` channels, modelled exactly over `ℚ`. -/
structure QColor where
  r : ℚ
  g : ℚ
  b : ℚ
  a : ℚ
deriving DecidableEq

/-- `iced::Color::from_rgb8` (each 8-bit channel divided by 255, alpha 1). -/
def qColorFromRgb8 (r g b : Nat) : QColor :=
  ⟨(r : ℚ) / 255, (g : ℚ) / 255, (b : ℚ) / 255, 1⟩

/-- `iced::Color::from_rgba8`. -/
def qColorFromRgba8 (r g b : Nat) (a : ℚ) : QColor :=
  ⟨(r : ℚ) / 255, (g : ℚ) / 255, (b : ℚ) / 255, a⟩

/-- A grey `iced::Color::from_rgb(v, v, v)`. -/
def qGray (v : ℚ) : QColor := ⟨v, v, v, 1⟩

/-- Grey with alpha, `iced::Color::from_rgba(v, v, v, a)`. -/
def qGrayAlpha (v a : ℚ) : QColor := ⟨v, v, v, a⟩

/-- `Colors` from `src/render/chunks.rs`: a borrowed view of the `PLTE` body. -/
structure Colors where
  data : List Nat
deriving DecidableEq

/-- `Colors::new` from `src/render/chunks.rs`. -/
def Colors.new (input : List Nat) : Except Error Colors :=
  if input.length % 3 > 0 ∨ input.length > 256 * 3 then
    .error (.invalidPaletteSize input.length)
  else
    .ok ⟨input⟩

/-- `Colors::len` from `src/render/chunks.rs`. -/
def Colors.len (c : Colors) : Nat := c.data.length / 3

/-- `Colors::get` from `src/render/chunks.rs`.  The Rust code slices
`self.0[index * 3..][..3]`, which panics when fewer than three bytes remain at
`index * 3`; the panic is modelled as `none`. -/
def Colors.get (c : Colors) (index : Nat) : Option QColor :=
  if index * 3 + 3 ≤ c.data.length then
    some (qColorFromRgb8 (c.data.getD (index * 3) 0)
      (c.data.getD (index * 3 + 1) 0) (c.data.getD (index * 3 + 2) 0))
  else
    Option.none

/-- `Chunk` from `src/render/chunks.rs`. -/
inductive Chunk where
  | ihdr (width height : Nat) (bitDepth : BitDepth) (colorType : ColorType)
      (interlace : Interlace)
  | plte (colors : Colors)
  | idat (data : List Nat)
  | iend
  | unknown
deriving DecidableEq

/-- Whether a chunk is the header chunk. -/
def Chunk.isIhdr : Chunk → Bool
  | .ihdr .. => true
  | _ => false

/-- Result of running a piece of Rust code that can return normally, return an
error, or panic. -/
inductive Outcome (α : Type) where
  | ok (a : α)
  | err (e : Error)
  | panic
deriving DecidableEq

/-! ### Byte-level parsing primitives (nom combinators over `&[u8]`)

A parser takes the input bytes and either fails or returns the remaining
input together with the parsed value, exactly like nom's
`IResult<&[u8], T, Error>`.  The recoverable/fatal (`Err::Error` vs
`Err::Failure`) distinction never influences an observable outcome of the
code under verification (both stop the un-`finish`ed chunk iterator in
`render`, and both are converted to a plain `Error` by `?`), so a single
error channel is used. -/

/-- `nom::bytes::complete::take(n)`. -/
def takeN (n : Nat) (input : List Nat) : Except Error (List Nat × List Nat) :=
  if n ≤ input.length then .ok (input.drop n, input.take n)
  else .error .nomFailed

/-- `nom::number::complete::be_u32`: big-endian `u32` from four bytes. -/
def beU32 (input : List Nat) : Except Error (List Nat × Nat) :=
  match takeN 4 input with
  | .error e => .error e
  | .ok (rest, bytes) =>
      .ok (rest,
        ((bytes.getD 0 0 * 256 + bytes.getD 1 0) * 256 + bytes.getD 2 0) * 256
          + bytes.getD 3 0)

/-- `nom::character::is_alphabetic` (ASCII letter). -/
def isAlpha (b : Nat) : Bool :=
  (65 ≤ b ∧ b ≤ 90) ∨ (97 ≤ b ∧ b ≤ 122)

/-- `u8::is_ascii_uppercase`. -/
def isUpper (b : Nat) : Bool := 65 ≤ b ∧ b ≤ 90

/-- `u8::to_ascii_uppercase` (used by `make_ascii_uppercase`). -/
def toUpper (b : Nat) : Nat := if 97 ≤ b ∧ b ≤ 122 then b - 32 else b

/-- `take_while_m_n(4, 4, is_alphabetic)`: exactly four ASCII letters. -/
def takeType (input : List Nat) : Except Error (List Nat × List Nat) :=
  if (input.take 4).length = 4 ∧ (input.take 4).all isAlpha then
    .ok (input.drop 4, input.take 4)
  else .error .nomFailed

/-- `nom::bytes::complete::tag(&[b])` for a single byte. -/
def tagByte (b : Nat) (input : List Nat) : Except Error (List Nat × Unit) :=
  match input with
  | x :: rest => if x = b then .ok (rest, ()) else .error .nomFailed
  | [] => .error .nomFailed

/-- `one_byte_as::<T>` from `src/parse.rs`, specialised by a `TryFrom`
function: take one byte and convert it. -/
def oneByteAs {α : Type} (tryFrom : Nat → Except Error α) (input : List Nat) :
    Except Error (List Nat × α) :=
  match input with
  | b :: rest =>
      match tryFrom b with
      | .ok a => .ok (rest, a)
      | .error e => .error e
  | [] => .error .nomFailed

/-- The `header` signature parser from `src/parse.rs`:
`recognize(tuple((tag(&[0x89]), tag(b"PNG"), tag(&[0x0D,0x0A,0x1A,0x0A]))))`. -/
def pngSignature (input : List Nat) : Except Error (List Nat × List Nat) :=
  if input.take 8 = [0x89, 0x50, 0x4E, 0x47, 0x0D, 0x0A, 0x1A, 0x0A] then
    .ok (input.drop 8, input.take 8)
  else .error .nomFailed

/-! ### Chunk body parsers from `src/render/chunks.rs` -/

/-- The `ihdr` body parser. -/
def ihdrParse (input : List Nat) : Except Error (List Nat × Chunk) :=
  match beU32 input with
  | .error e => .error e
  | .ok (input, width) =>
  match beU32 input with
  | .error e => .error e
  | .ok (input, height) =>
  match oneByteAs BitDepth.tryFrom input with
  | .error e => .error e
  | .ok (input, bitDepth) =>
  match oneByteAs ColorType.tryFrom input with
  | .error e => .error e
  | .ok (input, colorType) =>
  match tagByte 0 input with
  | .error e => .error e
  | .ok (input, _) =>
  match tagByte 0 input with
  | .error e => .error e
  | .ok (input, _) =>
  match oneByteAs Interlace.tryFrom input with
  | .error e => .error e
  | .ok (input, interlace) =>
    .ok (input, Chunk.ihdr width height bitDepth colorType interlace)

/-- The `plte` body parser.  Note that, as in the source, the input is
returned *unconsumed*: `Ok((input, Chunk::Plte(Colors::new(input)?)))`. -/
def plteParse (input : List Nat) : Except Error (List Nat × Chunk) :=
  match Colors.new input with
  | .error e => .error e
  | .ok colors => .ok (input, Chunk.plte colors)

/-- The `idat` body parser: the whole body is taken, nothing remains. -/
def idatParse (input : List Nat) : Except Error (List Nat × Chunk) :=
  .ok ([], Chunk.idat input)

/-- The `iend` body parser: the body must be empty. -/
def iendParse (input : List Nat) : Except Error (List Nat × Chunk) :=
  if input = [] then .ok (input, Chunk.iend) else .error .invalidIEnd

/-- The `unknown` body parser: the body is discarded. -/
def unknownParse (_input : List Nat) : Except Error (List Nat × Chunk) :=
  .ok ([], Chunk.unknown)

/-- `nom::combinator::all_consuming` applied to a body parser: fails unless
the parser consumed the entire body. -/
def allConsuming (p : List Nat → Except Error (List Nat × Chunk))
    (input : List Nat) : Except Error Chunk :=
  match p input with
  | .error e => .error e
  | .ok (rest, c) => if rest = [] then .ok c else .error .nomFailed

/-- The chunk framing parser `chunk` from `src/render/chunks.rs`: big-endian
length, four ASCII-letter type tag, `length` body bytes, four CRC bytes
(consumed, unverified), then dispatch on the case-folded tag. -/
def chunkParse (input : List Nat) : Except Error (List Nat × Chunk) :=
  match beU32 input with
  | .error e => .error e
  | .ok (input, length) =>
  match takeType input with
  | .error e => .error e
  | .ok (input, ty) =>
  let critical := isUpper (ty.getD 0 0)
  match takeN length input with
  | .error e => .error e
  | .ok (input, chunkData) =>
  match takeN 4 input with
  | .error e => .error e
  | .ok (input, _crc) =>
  let tyUpper := ty.map toUpper
  let dispatched : Except Error Chunk :=
    if tyUpper = [73, 72, 68, 82] then allConsuming ihdrParse chunkData
    else if tyUpper = [80, 76, 84, 69] then allConsuming plteParse chunkData
    else if tyUpper = [73, 68, 65, 84] then allConsuming idatParse chunkData
    else if tyUpper = [73, 69, 78, 68] then allConsuming iendParse chunkData
    else if critical then .error (.unknownCriticalChunk tyUpper)
    else allConsuming unknownParse chunkData
  match dispatched with
  | .error e => .error e
  | .ok c => .ok (input, c)

/-! ### The `Renderer` from `src/parse.rs` -/

/-- The `bits_per_pixel` match from `Renderer::new` in `src/parse.rs`. -/
def bitsPerPixel (bitDepth : BitDepth) (colorType : ColorType) :
    Except Error Nat :=
  match bitDepth, colorType with
  | .one, .grayScale | .one, .palette => .ok 1
  | .two, .grayScale | .two, .palette => .ok 2
  | .four, .grayScale | .four, .palette => .ok 4
  | .eight, .grayScale | .eight, .palette => .ok 8
  | .eight, .grayScaleAlpha | .sixteen, .grayScale => .ok 16
  | .eight, .rgb => .ok 24
  | .eight, .rgbAlpha | .sixteen, .grayScaleAlpha => .ok 32
  | .sixteen, .rgb => .ok 48
  | .sixteen, .rgbAlpha => .ok 64
  | _, _ => .error (.invalidBitColorCombo bitDepth.toByte colorType.toByte)

/-- The decoder state of `Renderer` in `src/parse.rs`.  The drawing frame and
the UI zoom state are the external drawing surface; the unused `gamma` field
(its only consumer is commented out in `draw_pixel`) is omitted.
`scanlineLen` records the capacity `(width * bits_per_pixel).div_ceil(8) + 1`
of the two scanline buffers. -/
structure Renderer where
  width : Nat
  height : Nat
  colorType : ColorType
  bitsPerPixel : Nat
  interlace : Interlace
  palette : Option Colors
  scanline : Nat
  nextScanline : List Nat
  prevScanline : List Nat
  scanlineLen : Nat
deriving DecidableEq

/-- `Renderer::new` from `src/parse.rs`. -/
def rendererNew (width height : Nat) (bitDepth : BitDepth)
    (colorType : ColorType) (interlace : Interlace) : Except Error Renderer :=
  match bitsPerPixel bitDepth colorType with
  | .error e => .error e
  | .ok bpp =>
      .ok ⟨width, height, colorType, bpp, interlace, Option.none, 0, [], [],
        (width * bpp + 7) / 8 + 1⟩

/-- `Renderer::set_palette` from `src/parse.rs`. -/
def rendererSetPalette (r : Renderer) (colors : Colors) : Renderer :=
  { r with palette := some colors }

/-! ### `Renderer::filter`: scanline defiltering

The filter reverses the per-scanline delta coding in place.  Each arm of the
Rust `match` is one loop over the byte indices `1 .. len`; the loops are
modelled as left folds of a step function over `List.range' 1 (len - 1)`. -/

/-- The loop body of the `Sub` arm of `Renderer::filter`
(`prior = i.saturating_sub(bytes_per_pixel)`, wrapping byte addition). -/
def subStep (bpp : Nat) (a : List Nat) (i : Nat) : List Nat :=
  a.set i ((a.getD i 0 + a.getD (i - bpp) 0) % 256)

/-- The loop body of the `Up` arm of `Renderer::filter`. -/
def upStep (prev : List Nat) (a : List Nat) (i : Nat) : List Nat :=
  a.set i ((a.getD i 0 + prev.getD i 0) % 256)

/-- The loop body of the `Average` arm of `Renderer::filter`; the final
`% 256` models the `as u8` cast of the `u16` average. -/
def averageStep (bpp : Nat) (prev : List Nat) (a : List Nat) (i : Nat) :
    List Nat :=
  a.set i ((a.getD i 0 + ((a.getD (i - bpp) 0 + prev.getD i 0) / 2) % 256) % 256)

/-- The Paeth predictor computation inside the `Paeth` arm of
`Renderer::filter`: `p = left + up - up_left` in `i16`, absolute distances,
nearest of the three (ties prefer left, then up), then an `as u8` cast. -/
def paethPredict (left up upLeft : Nat) : Nat :=
  let p : Int := (left : Int) + (up : Int) - (upLeft : Int)
  let pLeft := (p - (left : Int)).natAbs
  let pUp := (p - (up : Int)).natAbs
  let pUpLeft := (p - (upLeft : Int)).natAbs
  (if pLeft ≤ pUp ∧ pLeft ≤ pUpLeft then left
   else if pUp ≤ pUpLeft then up
   else upLeft) % 256

/-- The loop body of the `Paeth` arm of `Renderer::filter`. -/
def paethStep (bpp : Nat) (prev : List Nat) (a : List Nat) (i : Nat) :
    List Nat :=
  a.set i ((a.getD i 0 +
    paethPredict (a.getD (i - bpp) 0) (prev.getD i 0) (prev.getD (i - bpp) 0)) % 256)

/-- The indices `1 .. len` visited by each filter loop. -/
def loopIdx (len : Nat) : List Nat := List.range' 1 (len - 1)

/-- `Renderer::filter` from `src/parse.rs`: read the filter-type byte with
`one_byte_as::<FilterType>`, zero it, then reverse the filter in place.  The
`Up` arm indexes `self.prev_scanline[i]` directly, which panics when a
non-empty previous buffer is shorter than the current one. -/
def rendererFilter (bpp : Nat) (prev curr : List Nat) : Outcome (List Nat) :=
  match curr.head? with
  | Option.none => .err .nomFailed
  | some b =>
  match FilterType.tryFrom b with
  | .error e => .err e
  | .ok filterType =>
  let c := curr.set 0 0
  match filterType with
  | .none => .ok c
  | .sub => .ok ((loopIdx c.length).foldl (subStep bpp) c)
  | .up =>
      if prev.isEmpty then .ok c
      else if c.length ≤ prev.length then
        .ok ((loopIdx c.length).foldl (upStep prev) c)
      else .panic
  | .average => .ok ((loopIdx c.length).foldl (averageStep bpp prev) c)
  | .paeth => .ok ((loopIdx c.length).foldl (paethStep bpp prev) c)

/-! ### `Renderer::render`: pixel decoding of one defiltered scanline

`render` walks the sample region of the current scanline with a nom
iterator — `take_bits(bits_per_pixel)` when `bits_per_pixel < 8`, else
`take(bytes_per_pixel)` — and emits one draw call per decoded pixel.  A nom
iterator yields values while its parser succeeds and stops at the first
(recoverable) failure, so it produces exactly the complete
fields/byte-groups, discarding a final incomplete one. -/

/-- The eight bits of a byte, most significant first. -/
def bitsOfByte (b : Nat) : List Nat :=
  [b / 128 % 2, b / 64 % 2, b / 32 % 2, b / 16 % 2,
   b / 8 % 2, b / 4 % 2, b / 2 % 2, b % 2]

/-- The bit stream of a byte string, as consumed by `take_bits`. -/
def bitsOfBytes (bytes : List Nat) : List Nat :=
  (bytes.map bitsOfByte).flatten

/-- The value of a big-endian bit field. -/
def bitFieldValue (bits : List Nat) : Nat :=
  bits.foldl (fun acc b => 2 * acc + b) 0

/-- The sequence of complete `width`-sized groups of a list, as yielded by a
nom iterator whose parser consumes `width` elements at a time. -/
def completeGroups {α : Type} (width : Nat) (l : List α) : List (List α) :=
  (List.range (l.length / width)).map fun k => (l.drop (k * width)).take width

/-- The successive `bpp`-bit field values extracted by
`iterator(input, take_bits(bpp))`. -/
def bitFields (bpp : Nat) (bytes : List Nat) : List Nat :=
  (completeGroups bpp (bitsOfBytes bytes)).map bitFieldValue

/-- A draw call `(column, row, colour)` issued through `draw_pixel` to the
drawing surface (the zoom scaling applied for display is not part of the
decoded pixel). -/
abbrev Draw : Type := Nat × Nat × QColor

/-- `u16::from_be_bytes(..) as f32 / u16::MAX as f32` on the first two bytes
of a group (`from_two_bytes` in `Renderer::render`). -/
def fromTwoBytes (bytes : List Nat) : ℚ :=
  ((bytes.getD 0 0 * 256 + bytes.getD 1 0 : Nat) : ℚ) / 65535

/-- The palette-lookup draw loop shared by both `ColorType::Palette` branches
of `Renderer::render`: each `(column, index)` pair becomes one draw call, and
an out-of-range index panics inside `Colors::get`. -/
def paletteDraws (p : Colors) (y : Nat) : List (Nat × Nat) → Outcome (List Draw)
  | [] => .ok []
  | (x, idx) :: rest =>
      match Colors.get p idx with
      | Option.none => .panic
      | some color =>
          match paletteDraws p y rest with
          | .ok draws => .ok ((x, y, color) :: draws)
          | .err e => .err e
          | .panic => .panic

/-- `Renderer::render` from `src/parse.rs`, decoding the sample region
`next[1..]` of one defiltered scanline into draw calls.  `unreachable!` arms
(combinations ruled out by `Renderer::new`) are panics.  When the colour type
is `Palette` and no palette was set, both branches do nothing
(`if let Some(palette) = ...` with no `else`). -/
def renderRow (colorType : ColorType) (bpp : Nat) (palette : Option Colors)
    (y : Nat) (next : List Nat) : Outcome (List Draw) :=
  if bpp < 8 then
    let fields := bitFields bpp (next.drop 1)
    match colorType with
    | .grayScale =>
        .ok (fields.enum.map fun p =>
          (p.1, y, qGray ((p.2 : ℚ) / 2 ^ bpp)))
    | .palette =>
        match palette with
        | Option.none => .ok []
        | some colors => paletteDraws colors y fields.enum
    | _ => .panic
  else
    let bytesPerPixel := bpp / 8
    let pixels := completeGroups bytesPerPixel (next.drop 1)
    match colorType with
    | .grayScale =>
        .ok (pixels.enum.map fun p =>
          (p.1, y, qGray (if bytesPerPixel = 1 then ((p.2.getD 0 0 : Nat) : ℚ) / 255
            else fromTwoBytes p.2)))
    | .rgb =>
        match bytesPerPixel with
        | 3 => .ok (pixels.enum.map fun p =>
            (p.1, y, qColorFromRgb8 (p.2.getD 0 0) (p.2.getD 1 0) (p.2.getD 2 0)))
        | 6 => .ok (pixels.enum.map fun p =>
            (p.1, y, QColor.mk (fromTwoBytes p.2) (fromTwoBytes (p.2.drop 2))
              (fromTwoBytes (p.2.drop 4)) 1))
        | _ => .panic
    | .palette =>
        match palette with
        | Option.none => .ok []
        | some colors => paletteDraws colors y (pixels.enum.map fun p => (p.1, p.2.getD 0 0))
    | .grayScaleAlpha =>
        .ok (pixels.enum.map fun p =>
          (p.1, y, if bytesPerPixel = 2 then
            qGrayAlpha (((p.2.getD 0 0 : Nat) : ℚ) / 255) (((p.2.getD 1 0 : Nat) : ℚ) / 255)
          else qGrayAlpha (fromTwoBytes p.2) (fromTwoBytes (p.2.drop 2))))
    | .rgbAlpha =>
        match bytesPerPixel with
        | 4 => .ok (pixels.enum.map fun p =>
            (p.1, y, qColorFromRgba8 (p.2.getD 0 0) (p.2.getD 1 0) (p.2.getD 2 0)
              (((p.2.getD 3 0 : Nat) : ℚ) / 255)))
        | 8 => .ok (pixels.enum.map fun p =>
            (p.1, y, QColor.mk (fromTwoBytes p.2) (fromTwoBytes (p.2.drop 2))
              (fromTwoBytes (p.2.drop 4)) (fromTwoBytes (p.2.drop 6))))
        | _ => .panic

/-- One iteration of the scanline loop in `<Renderer as Write>::write`, run
when the current buffer has filled to capacity: defilter, decode pixels, swap
the buffers, clear the (new) current buffer and advance the scanline index. -/
def processScanline (r : Renderer) : Outcome (Renderer × List Draw) :=
  let bpp := (r.bitsPerPixel + 7) / 8
  match rendererFilter bpp r.prevScanline r.nextScanline with
  | .err e => .err e
  | .panic => .panic
  | .ok filtered =>
  match renderRow r.colorType r.bitsPerPixel r.palette r.scanline filtered with
  | .err e => .err e
  | .panic => .panic
  | .ok draws =>
      .ok ({ r with
        prevScanline := filtered
        nextScanline := []
        scanline := r.scanline + 1 }, draws)

/-! ### The top-level `render` from `src/parse.rs`

The zlib decompressor together with the pixel pipeline behind it is the
external stream primitive of the design: the chunk loop only ever feeds it
`IDAT` bodies (`write_all`, which may fail) and sets the palette on the
renderer behind it.  It is abstracted as a caller-supplied state `σ` with a
`plteSink` (never fails, like `set_palette`) and an `idatSink` (may fail,
like `write_all`). -/

/-- The chunk loop of `render` in `src/parse.rs`:
`for chunk in &mut iterator(data, chunks::chunk) { ... }` followed by
`Err(Error::MissingCritical("IEND"))`.  The nom iterator stops (without
reporting its stored error — `finish` is never called) as soon as a chunk
fails to parse, so a parse failure falls through to the missing-`IEND`
error. -/
def renderLoop {σ : Type} (plteSink : σ → Colors → σ)
    (idatSink : σ → List Nat → Except Error σ) (s : σ) (data : List Nat) :
    Except Error Unit :=
  match h : chunkParse data with
  | .error _ => .error (.missingCritical "IEND")
  | .ok (rest, c) =>
    match c with
    | .ihdr _ _ _ _ _ => .error .duplicateIhdr
    | .plte colors => renderLoop plteSink idatSink (plteSink s colors) rest
    | .idat bytes =>
        match idatSink s bytes with
        | .error e => .error e
        | .ok s2 => renderLoop plteSink idatSink s2 rest
    | .iend => .ok ()
    | .unknown => renderLoop plteSink idatSink s rest
termination_by data.length
decreasing_by
  all_goals
    have hlt : ∀ (input out : List Nat) (c : Chunk),
        chunkParse input = .ok (out, c) → out.length < input.length := by
      intro input out c hp
      unfold chunkParse at hp
      cases h1 : beU32 input with
      | error e => rw [h1] at hp; cases hp
      | ok p1 =>
        obtain ⟨i1, len⟩ := p1
        rw [h1] at hp
        dsimp only at hp
        cases h2 : takeType i1 with
        | error e => rw [h2] at hp; cases hp
        | ok p2 =>
          obtain ⟨i2, ty⟩ := p2
          rw [h2] at hp
          dsimp only at hp
          cases h3 : takeN len i2 with
          | error e => rw [h3] at hp; cases hp
          | ok p3 =>
            obtain ⟨i3, body⟩ := p3
            rw [h3] at hp
            dsimp only at hp
            cases h4 : takeN 4 i3 with
            | error e => rw [h4] at hp; cases hp
            | ok p4 =>
              obtain ⟨i4, crc⟩ := p4
              rw [h4] at hp
              have e1 : i1.length + 4 = input.length := by
                unfold beU32 at h1
                cases htake : takeN 4 input with
                | error e => rw [htake] at h1; cases h1
                | ok q =>
                    rw [htake] at h1
                    cases h1
                    unfold takeN at htake
                    split at htake
                    · cases htake; simp; omega
                    · cases htake
              have e2 : i2.length + 4 = i1.length := by
                unfold takeType at h2
                split at h2
                · cases h2
                  next hc =>
                    have h4le : 4 ≤ i1.length := by
                      have := hc.1
                      simp at this
                      omega
                    simp
                    omega
                · cases h2
              have e3 : i3.length + len = i2.length := by
                unfold takeN at h3
                split at h3
                · cases h3; simp; omega
                · cases h3
              have e4 : i4.length + 4 = i3.length := by
                unfold takeN at h4
                split at h4
                · cases h4; simp; omega
                · cases h4
              have hout : out = i4 := by
                dsimp only at hp
                split at hp
                · cases hp
                · cases hp; rfl
              subst hout
              omega
    exact hlt _ _ _ h

/-- The top-level `render` from `src/parse.rs`: PNG signature, first chunk
(which must be the header), renderer construction, then the chunk loop. -/
def render {σ : Type} (plteSink : σ → Colors → σ)
    (idatSink : σ → List Nat → Except Error σ) (s : σ) (input : List Nat) :
    Except Error Unit :=
  match pngSignature input with
  | .error e => .error e
  | .ok (data, _) =>
  match chunkParse data with
  | .error e => .error e
  | .ok (data, c) =>
  match c with
  | .ihdr width height bitDepth colorType interlace =>
      match rendererNew width height bitDepth colorType interlace with
      | .error e => .error e
      | .ok _ => renderLoop plteSink idatSink s data
  | _ => .error (.missingCritical "IHDR")

/-! ### Specification-side definitions

These definitions transcribe the *spec's* words (not the source) and exist to
be compared against the source-derived definitions above. -/

/-- The spec's nine-entry `bits_per_pixel` lookup table (§4.5): "1/2/4/8 for
GrayScale/Palette, 16 for (8-bit GrayScaleAlpha) or (16-bit GrayScale), 24 for
8-bit Rgb, 32 for (8-bit RgbAlpha) or (16-bit GrayScaleAlpha), 48 for 16-bit
Rgb, 64 for 16-bit RgbAlpha"; `Option.none` for every other combination. -/
def specBitsPerPixel (bitDepth : BitDepth) (colorType : ColorType) :
    Option Nat :=
  match colorType, bitDepth with
  | .grayScale, .one => some 1
  | .grayScale, .two => some 2
  | .grayScale, .four => some 4
  | .grayScale, .eight => some 8
  | .palette, .one => some 1
  | .palette, .two => some 2
  | .palette, .four => some 4
  | .palette, .eight => some 8
  | .grayScaleAlpha, .eight => some 16
  | .grayScale, .sixteen => some 16
  | .rgb, .eight => some 24
  | .rgbAlpha, .eight => some 32
  | .grayScaleAlpha, .sixteen => some 32
  | .rgb, .sixteen => some 48
  | .rgbAlpha, .sixteen => some 64
  | _, _ => Option.none

/-- The spec's error taxonomy (§7): which errors are "Value" errors. -/
def Error.isValueError : Error → Bool
  | .invalidBitDepth _ => true
  | .invalidColorType _ => true
  | .invalidInterlace _ => true
  | .invalidBitColorCombo _ _ => true
  | .invalidPaletteSize _ => true
  | .invalidFilterType _ => true
  | _ => false

/-- The predictor of the forward PNG filter (spec §4.5), computed from the
*reconstructed* data: `line` is the reconstructed scanline (index 0 is the
zeroed filter-byte slot, samples start at index 1), `prev` the previous
reconstructed scanline (`[]` on the first row).  `left`, `up` and `up_left`
are 0 where the context is missing; `i - bpp` is truncated subtraction, and
index 0 of a reconstructed scanline holds 0, so out-of-range lookups yield
0 as the spec prescribes. -/
def specPredictor (filterType : FilterType) (bpp : Nat) (prev line : List Nat)
    (i : Nat) : Nat :=
  let left := line.getD (i - bpp) 0
  let up := prev.getD i 0
  let upLeft := prev.getD (i - bpp) 0
  match filterType with
  | .none => 0
  | .sub => left
  | .up => up
  | .average => (left + up) / 2
  | .paeth => paethPredict left up upLeft

/-- The forward PNG filter (spec §4.5, the encoder side): the filter-type tag
byte followed by `filtered[i] = (raw[i] - predictor) mod 256` for each sample
byte, the predictor being computed from the raw (reconstructed) bytes. -/
def forwardFilter (filterType : FilterType) (bpp : Nat) (prev raw : List Nat) :
    List Nat :=
  let line := 0 :: raw
  filterType.code ::
    (List.range raw.length).map fun j =>
      (line.getD (j + 1) 0 + 256 - specPredictor filterType bpp prev line (j + 1)) % 256

/-- The decoder states and streams from which the chunk loop of `render`
reaches a header chunk: the stream starts with zero or more chunks that the
loop passes through — successfully parsed `PLTE`, ancillary, or `IDAT`
chunks whose write into the decompressor sink succeeds — followed by an
`IHDR` chunk.  (An `IEND`, a chunk-parse failure, or a failed `IDAT` write
would end the loop first.) -/
inductive LeadsToIhdr {σ : Type} (ps : σ → Colors → σ)
    (is : σ → List Nat → Except Error σ) : σ → List Nat → Prop
  | here (s : σ) (data rest : List Nat) (width height : Nat)
      (bitDepth : BitDepth) (colorType : ColorType) (interlace : Interlace)
      (h : chunkParse data = .ok (rest, .ihdr width height bitDepth colorType interlace)) :
      LeadsToIhdr ps is s data
  | plteStep (s : σ) (data rest : List Nat) (colors : Colors)
      (h : chunkParse data = .ok (rest, .plte colors))
      (htail : LeadsToIhdr ps is (ps s colors) rest) : LeadsToIhdr ps is s data
  | idatStep (s : σ) (data rest bytes : List Nat) (s2 : σ)
      (h : chunkParse data = .ok (rest, .idat bytes))
      (hs : is s bytes = .ok s2)
      (htail : LeadsToIhdr ps is s2 rest) : LeadsToIhdr ps is s data
  | unknownStep (s : σ) (data rest : List Nat)
      (h : chunkParse data = .ok (rest, .unknown))
      (htail : LeadsToIhdr ps is s rest) : LeadsToIhdr ps is s data

/-! ### Auxiliary definitions for stating and proving the claims -/

/-- Big-endian 4-byte encoding of a `u32` (wire format, §6). -/
def be32Bytes (n : Nat) : List Nat :=
  [n / 2 ^ 24 % 256, n / 2 ^ 16 % 256, n / 2 ^ 8 % 256, n % 256]

/-- The state of the defiltering loop after the first `k` iterations: entries
at indices `≤ k` already reconstructed (`line`), entries beyond still
filtered (`filt`). -/
def mixUpTo (k : Nat) (line filt : List Nat) : List Nat :=
  (List.range line.length).map fun j =>
    if j ≤ k then line.getD j 0 else filt.getD j 0

/-- Observation of one scanline-processing step: on success, the draw calls
issued, the new scanline index, and the new current buffer. -/
def stepOutcome (o : Outcome (Renderer × List Draw)) :
    Option (List Draw × Nat × List Nat) :=
  match o with
  | .ok (r2, draws) => some (draws, r2.scanline, r2.nextScanline)
  | _ => Option.none

/-- The 8-byte PNG signature. -/
def sigBytes : List Nat := [137, 80, 78, 71, 13, 10, 26, 10]

/-- A well-formed `IHDR` chunk: width 1, height 1, bit depth 8, colour type
Rgb, both method bytes 0, no interlacing, plus 4 (unverified) CRC bytes. -/
def ihdrChunkA : List Nat :=
  [0, 0, 0, 13, 73, 72, 68, 82, 0, 0, 0, 1, 0, 0, 0, 1, 8, 2, 0, 0, 0,
   0, 0, 0, 0]

/-- A well-formed empty `IEND` chunk (with 4 CRC bytes). -/
def iendChunk0 : List Nat := [0, 0, 0, 0, 73, 69, 78, 68, 0, 0, 0, 0]

/-- A well-formed `IDAT` chunk with an empty body (and 4 CRC bytes). -/
def idatChunk0 : List Nat := [0, 0, 0, 0, 73, 68, 65, 84, 0, 0, 0, 0]

/-- A trivial palette sink over a unit decoder state. -/
def unitPlteSink : Unit → Colors → Unit := fun s _ => s

/-- A trivial, always-succeeding image-data sink over a unit decoder state. -/
def unitIdatSink : Unit → List Nat → Except Error Unit := fun s _ => .ok s

/-! ## Helper lemmas -/

theorem takeN_exact {a : List Nat} {n : Nat} (b : List Nat)
    (h : a.length = n) : takeN n (a ++ b) = .ok (b, a) := by
  unfold takeN
  rw [if_pos (by simp [← h])]
  rw [List.take_left' h, List.drop_left' h]

theorem beU32_be32 {n : Nat} (hn : n < 2 ^ 32) (rest : List Nat) :
    beU32 (be32Bytes n ++ rest) = .ok (rest, n) := by
  unfold beU32
  rw [takeN_exact rest (by rfl)]
  dsimp only [be32Bytes, List.getD_cons_zero, List.getD_cons_succ]
  congr 1
  refine Prod.ext rfl ?_
  dsimp only
  omega

theorem takeType_exact {ty : List Nat} (rest : List Nat)
    (hlen : ty.length = 4) (halpha : ty.all isAlpha = true) :
    takeType (ty ++ rest) = .ok (rest, ty) := by
  unfold takeType
  rw [List.take_left' hlen, List.drop_left' hlen]
  rw [if_pos ⟨hlen, halpha⟩]

/-- Unfolding equations for the chunk loop. -/
theorem renderLoop_parse_error {σ : Type} (ps : σ → Colors → σ)
    (is : σ → List Nat → Except Error σ) (s : σ) {data : List Nat} {e : Error}
    (h : chunkParse data = .error e) :
    renderLoop ps is s data = .error (.missingCritical "IEND") := by
  unfold renderLoop
  split
  · rfl
  · next heq => rw [h] at heq; exact Except.noConfusion heq

theorem renderLoop_ihdr {σ : Type} (ps : σ → Colors → σ)
    (is : σ → List Nat → Except Error σ) (s : σ) {data rest : List Nat}
    {width height : Nat} {bd : BitDepth} {ct : ColorType} {il : Interlace}
    (h : chunkParse data = .ok (rest, .ihdr width height bd ct il)) :
    renderLoop ps is s data = .error .duplicateIhdr := by
  unfold renderLoop
  split
  · next heq => rw [h] at heq; exact Except.noConfusion heq
  · next r c heq =>
      rw [h] at heq
      injection heq with heq2
      injection heq2 with hr hc
      subst hr; subst hc
      rfl

theorem renderLoop_plte {σ : Type} (ps : σ → Colors → σ)
    (is : σ → List Nat → Except Error σ) (s : σ) {data rest : List Nat}
    {colors : Colors} (h : chunkParse data = .ok (rest, .plte colors)) :
    renderLoop ps is s data = renderLoop ps is (ps s colors) rest := by
  conv_lhs => rw [renderLoop]
  split
  · next heq => rw [h] at heq; exact Except.noConfusion heq
  · next r c heq =>
      rw [h] at heq
      injection heq with heq2
      injection heq2 with hr hc
      subst hr; subst hc
      rfl

theorem renderLoop_idat_ok {σ : Type} (ps : σ → Colors → σ)
    (is : σ → List Nat → Except Error σ) (s : σ) {data rest bytes : List Nat}
    {s2 : σ} (h : chunkParse data = .ok (rest, .idat bytes))
    (hs : is s bytes = .ok s2) :
    renderLoop ps is s data = renderLoop ps is s2 rest := by
  conv_lhs => rw [renderLoop]
  split
  · next heq => rw [h] at heq; exact Except.noConfusion heq
  · next r c heq =>
      rw [h] at heq
      injection heq with heq2
      injection heq2 with hr hc
      subst hr; subst hc
      dsimp only
      rw [hs]

theorem renderLoop_idat_error {σ : Type} (ps : σ → Colors → σ)
    (is : σ → List Nat → Except Error σ) (s : σ) {data rest bytes : List Nat}
    {e : Error} (h : chunkParse data = .ok (rest, .idat bytes))
    (hs : is s bytes = .error e) :
    renderLoop ps is s data = .error e := by
  unfold renderLoop
  split
  · next heq => rw [h] at heq; exact Except.noConfusion heq
  · next r c heq =>
      rw [h] at heq
      injection heq with heq2
      injection heq2 with hr hc
      subst hr; subst hc
      dsimp only
      rw [hs]

theorem renderLoop_iend {σ : Type} (ps : σ → Colors → σ)
    (is : σ → List Nat → Except Error σ) (s : σ) {data rest : List Nat}
    (h : chunkParse data = .ok (rest, .iend)) :
    renderLoop ps is s data = .ok () := by
  unfold renderLoop
  split
  · next heq => rw [h] at heq; exact Except.noConfusion heq
  · next r c heq =>
      rw [h] at heq
      injection heq with heq2
      injection heq2 with hr hc
      subst hr; subst hc
      rfl

theorem renderLoop_unknown {σ : Type} (ps : σ → Colors → σ)
    (is : σ → List Nat → Except Error σ) (s : σ) {data rest : List Nat}
    (h : chunkParse data = .ok (rest, .unknown)) :
    renderLoop ps is s data = renderLoop ps is s rest := by
  conv_lhs => rw [renderLoop]
  split
  · next heq => rw [h] at heq; exact Except.noConfusion heq
  · next r c heq =>
      rw [h] at heq
      injection heq with heq2
      injection heq2 with hr hc
      subst hr; subst hc
      rfl

/-! ## The claims -/

/-- C2: for every `(bit_depth, color_type)` pair, `Renderer::new` computes
`bits_per_pixel` exactly as the spec's nine-entry table prescribes, and for
every pair outside the table it returns the `InvalidBitColorCombo` error
carrying the two bytes, before any scanline state is touched (the renderer is
never constructed). -/
theorem c2_bits_per_pixel_table :
    ∀ (width height : Nat) (bitDepth : BitDepth) (colorType : ColorType)
      (interlace : Interlace),
      match specBitsPerPixel bitDepth colorType with
      | some n =>
          rendererNew width height bitDepth colorType interlace =
            .ok ⟨width, height, colorType, n, interlace, Option.none, 0, [], [],
              (width * n + 7) / 8 + 1⟩
      | Option.none =>
          rendererNew width height bitDepth colorType interlace =
            .error (.invalidBitColorCombo bitDepth.toByte colorType.toByte) := by
  intro width height bitDepth colorType interlace
  cases bitDepth <;> cases colorType <;> rfl

/-- C6 counterexample: the claim says palette construction requires at least
one entry (length at least 3), but `Colors::new` accepts the empty body
(`0 % 3 == 0` and `0 ≤ 768`). -/
theorem c6_counterexample : Colors.new [] = .ok ⟨[]⟩ := rfl

/-- C6 (amended): `Colors::new` succeeds exactly when the body length is
divisible by 3 and at most 768 bytes — including the zero-entry empty body —
and any other length fails with `InvalidPaletteSize` carrying that length. -/
theorem c6_palette_size (input : List Nat) :
    (input.length % 3 = 0 ∧ input.length ≤ 768 →
      Colors.new input = .ok ⟨input⟩)
    ∧ (input.length % 3 ≠ 0 ∨ 768 < input.length →
      Colors.new input = .error (.invalidPaletteSize input.length)) := by
  constructor
  · intro hc
    unfold Colors.new
    rw [if_neg]
    omega
  · intro hc
    unfold Colors.new
    rw [if_pos]
    omega

theorem c6_witness :
    Colors.new [1, 2, 3] = .ok ⟨[1, 2, 3]⟩
    ∧ Colors.new [1, 2, 3, 4] = .error (.invalidPaletteSize 4) :=
  ⟨(c6_palette_size [1, 2, 3]).1 (by decide),
   (c6_palette_size [1, 2, 3, 4]).2 (by decide)⟩

theorem bitDepth_tryFrom_invalid {bd : Nat}
    (h : bd ∉ ([1, 2, 4, 8, 16] : List Nat)) :
    BitDepth.tryFrom bd = .error (.invalidBitDepth bd) := by
  unfold BitDepth.tryFrom
  split <;> simp_all

theorem bitDepth_tryFrom_valid {bd : Nat}
    (h : bd ∈ ([1, 2, 4, 8, 16] : List Nat)) :
    ∃ v, BitDepth.tryFrom bd = .ok v := by
  simp only [List.mem_cons, List.not_mem_nil, or_false] at h
  rcases h with rfl | rfl | rfl | rfl | rfl <;> exact ⟨_, rfl⟩

theorem colorType_tryFrom_invalid {ct : Nat}
    (h : ct ∉ ([0, 2, 3, 4, 6] : List Nat)) :
    ColorType.tryFrom ct = .error (.invalidColorType ct) := by
  unfold ColorType.tryFrom
  split <;> simp_all

theorem colorType_tryFrom_valid {ct : Nat}
    (h : ct ∈ ([0, 2, 3, 4, 6] : List Nat)) :
    ∃ v, ColorType.tryFrom ct = .ok v := by
  simp only [List.mem_cons, List.not_mem_nil, or_false] at h
  rcases h with rfl | rfl | rfl | rfl | rfl <;> exact ⟨_, rfl⟩

theorem interlace_tryFrom_invalid {il : Nat}
    (h : il ∉ ([0, 1] : List Nat)) :
    Interlace.tryFrom il = .error (.invalidInterlace il) := by
  unfold Interlace.tryFrom
  split <;> simp_all

/-- Reduction of the `ihdr` body parser on an arbitrary 13-byte body. -/
theorem ihdrParse_eval (width height bd ct cm fm il : Nat)
    (hw : width < 2 ^ 32) (hh : height < 2 ^ 32) :
    ihdrParse (be32Bytes width ++ be32Bytes height ++ [bd, ct, cm, fm, il]) =
      (match BitDepth.tryFrom bd with
       | .error e => .error e
       | .ok bdv =>
       match ColorType.tryFrom ct with
       | .error e => .error e
       | .ok ctv =>
       if cm = 0 then
         if fm = 0 then
           match Interlace.tryFrom il with
           | .error e => .error e
           | .ok ilv => .ok ([], Chunk.ihdr width height bdv ctv ilv)
         else .error .nomFailed
       else .error .nomFailed) := by
  have hassoc : be32Bytes width ++ be32Bytes height ++ [bd, ct, cm, fm, il] =
      be32Bytes width ++ (be32Bytes height ++ [bd, ct, cm, fm, il]) := by
    simp [List.append_assoc]
  unfold ihdrParse
  rw [hassoc, beU32_be32 hw]
  dsimp only
  rw [beU32_be32 hh]
  dsimp only
  dsimp only [oneByteAs]
  cases hbd : BitDepth.tryFrom bd with
  | error e => rfl
  | ok bdv =>
    dsimp only
    cases hct : ColorType.tryFrom ct with
    | error e => rfl
    | ok ctv =>
      dsimp only [tagByte]
      by_cases hcm : cm = 0
      · rw [if_pos hcm, if_pos hcm]
        dsimp only
        by_cases hfm : fm = 0
        · rw [if_pos hfm, if_pos hfm]
          dsimp only
          cases hil : Interlace.tryFrom il <;> rfl
        · rw [if_neg hfm, if_neg hfm]
      · rw [if_neg hcm, if_neg hcm]

/-- C5 counterexample: a 13-byte IHDR body whose compression-method byte is
nonzero (width 1, height 1, bit depth 8, colour type 2, compression 1) fails
with the generic nom `tag` parse error, which is not one of the spec's
Value errors — the claim's "corresponding ValueError" does not exist. -/
theorem c5_counterexample :
    ihdrParse [0, 0, 0, 1, 0, 0, 0, 1, 8, 2, 1, 0, 0] = .error .nomFailed
    ∧ Error.nomFailed.isValueError = false := ⟨rfl, rfl⟩

/-- C5 (amended): for every 13-byte IHDR body, the fields are validated left
to right — invalid bit depth fails with `InvalidBitDepth`, then invalid
colour type with `InvalidColorType`, then a nonzero compression or filter
method byte with the generic parse error `NomFailed` (there is no dedicated
ValueError for the method bytes), then an invalid interlace byte with
`InvalidInterlace`; when all fields are valid the parser returns the `Header`
with the decoded big-endian width and height. -/
theorem c5_ihdr_validation (width height bd ct cm fm il : Nat)
    (hw : width < 2 ^ 32) (hh : height < 2 ^ 32) :
    (bd ∉ ([1, 2, 4, 8, 16] : List Nat) →
      ihdrParse (be32Bytes width ++ be32Bytes height ++ [bd, ct, cm, fm, il]) =
        .error (.invalidBitDepth bd))
    ∧ (bd ∈ ([1, 2, 4, 8, 16] : List Nat) → ct ∉ ([0, 2, 3, 4, 6] : List Nat) →
      ihdrParse (be32Bytes width ++ be32Bytes height ++ [bd, ct, cm, fm, il]) =
        .error (.invalidColorType ct))
    ∧ (bd ∈ ([1, 2, 4, 8, 16] : List Nat) → ct ∈ ([0, 2, 3, 4, 6] : List Nat) →
        cm ≠ 0 →
      ihdrParse (be32Bytes width ++ be32Bytes height ++ [bd, ct, cm, fm, il]) =
        .error .nomFailed)
    ∧ (bd ∈ ([1, 2, 4, 8, 16] : List Nat) → ct ∈ ([0, 2, 3, 4, 6] : List Nat) →
        cm = 0 → fm ≠ 0 →
      ihdrParse (be32Bytes width ++ be32Bytes height ++ [bd, ct, cm, fm, il]) =
        .error .nomFailed)
    ∧ (bd ∈ ([1, 2, 4, 8, 16] : List Nat) → ct ∈ ([0, 2, 3, 4, 6] : List Nat) →
        cm = 0 → fm = 0 → il ∉ ([0, 1] : List Nat) →
      ihdrParse (be32Bytes width ++ be32Bytes height ++ [bd, ct, cm, fm, il]) =
        .error (.invalidInterlace il))
    ∧ (∀ (bdv : BitDepth) (ctv : ColorType) (ilv : Interlace),
        BitDepth.tryFrom bd = .ok bdv → ColorType.tryFrom ct = .ok ctv →
        cm = 0 → fm = 0 → Interlace.tryFrom il = .ok ilv →
      ihdrParse (be32Bytes width ++ be32Bytes height ++ [bd, ct, cm, fm, il]) =
        .ok ([], Chunk.ihdr width height bdv ctv ilv)) := by
  refine ⟨?_, ?_, ?_, ?_, ?_, ?_⟩
  · intro hbd
    rw [ihdrParse_eval width height bd ct cm fm il hw hh,
      bitDepth_tryFrom_invalid hbd]
  · intro hbd hct
    obtain ⟨bdv, hbdv⟩ := bitDepth_tryFrom_valid hbd
    rw [ihdrParse_eval width height bd ct cm fm il hw hh, hbdv]
    dsimp only
    rw [colorType_tryFrom_invalid hct]
  · intro hbd hct hcm
    obtain ⟨bdv, hbdv⟩ := bitDepth_tryFrom_valid hbd
    obtain ⟨ctv, hctv⟩ := colorType_tryFrom_valid hct
    rw [ihdrParse_eval width height bd ct cm fm il hw hh, hbdv]
    dsimp only
    rw [hctv]
    dsimp only
    rw [if_neg hcm]
  · intro hbd hct hcm hfm
    obtain ⟨bdv, hbdv⟩ := bitDepth_tryFrom_valid hbd
    obtain ⟨ctv, hctv⟩ := colorType_tryFrom_valid hct
    rw [ihdrParse_eval width height bd ct cm fm il hw hh, hbdv]
    dsimp only
    rw [hctv]
    dsimp only
    rw [if_pos hcm, if_neg hfm]
  · intro hbd hct hcm hfm hil
    obtain ⟨bdv, hbdv⟩ := bitDepth_tryFrom_valid hbd
    obtain ⟨ctv, hctv⟩ := colorType_tryFrom_valid hct
    rw [ihdrParse_eval width height bd ct cm fm il hw hh, hbdv]
    dsimp only
    rw [hctv]
    dsimp only
    rw [if_pos hcm, if_pos hfm, interlace_tryFrom_invalid hil]
  · intro bdv ctv ilv hbdv hctv hcm hfm hilv
    rw [ihdrParse_eval width height bd ct cm fm il hw hh, hbdv]
    dsimp only
    rw [hctv]
    dsimp only
    rw [if_pos hcm, if_pos hfm, hilv]

theorem c5_witness :
    ihdrParse [0, 0, 1, 37, 0, 0, 0, 165, 8, 2, 0, 0, 0] =
      .ok ([], Chunk.ihdr 293 165 .eight .rgb .none) :=
  (c5_ihdr_validation 293 165 8 2 0 0 0 (by norm_num) (by norm_num)).2.2.2.2.2
    .eight .rgb .none rfl rfl rfl rfl rfl

/-- C9: for every framed chunk whose four-letter tag does not case-fold to
`IHDR`, `PLTE`, `IDAT` or `IEND`: an uppercase first tag byte makes the chunk
parse fail with `UnknownCriticalChunk`, and a lowercase first tag byte makes
it succeed as `Unknown` with the body discarded and parsing positioned at the
next chunk. -/
theorem c9_unknown_chunk_dispatch (body ty crc rest : List Nat)
    (hty : ty.length = 4) (halpha : ty.all isAlpha = true)
    (hcrc : crc.length = 4) (hlen : body.length < 2 ^ 32)
    (hnot : ty.map toUpper ∉
      ([[73, 72, 68, 82], [80, 76, 84, 69], [73, 68, 65, 84],
        [73, 69, 78, 68]] : List (List Nat))) :
    (isUpper (ty.getD 0 0) = true →
      chunkParse (be32Bytes body.length ++ ty ++ body ++ crc ++ rest) =
        .error (.unknownCriticalChunk (ty.map toUpper)))
    ∧ (isUpper (ty.getD 0 0) = false →
      chunkParse (be32Bytes body.length ++ ty ++ body ++ crc ++ rest) =
        .ok (rest, .unknown)) := by
  have hassoc : be32Bytes body.length ++ ty ++ body ++ crc ++ rest =
      be32Bytes body.length ++ (ty ++ (body ++ (crc ++ rest))) := by
    simp [List.append_assoc]
  simp only [List.mem_cons, List.not_mem_nil, or_false, not_or] at hnot
  obtain ⟨hne1, hne2, hne3, hne4⟩ := hnot
  constructor
  · intro hcrit
    unfold chunkParse
    rw [hassoc, beU32_be32 hlen]
    dsimp only
    rw [takeType_exact _ hty halpha]
    dsimp only
    rw [takeN_exact (crc ++ rest) rfl]
    dsimp only
    rw [takeN_exact rest hcrc]
    dsimp only
    rw [if_neg hne1, if_neg hne2, if_neg hne3, if_neg hne4, if_pos hcrit]
  · intro hcrit
    unfold chunkParse
    rw [hassoc, beU32_be32 hlen]
    dsimp only
    rw [takeType_exact _ hty halpha]
    dsimp only
    rw [takeN_exact (crc ++ rest) rfl]
    dsimp only
    rw [takeN_exact rest hcrc]
    dsimp only
    rw [if_neg hne1, if_neg hne2, if_neg hne3, if_neg hne4,
      if_neg (by rw [hcrit]; exact Bool.false_ne_true)]
    rfl

theorem c9_witness :
    chunkParse [0, 0, 0, 1, 84, 69, 83, 84, 9, 0, 0, 0, 0, 5] =
      .error (.unknownCriticalChunk [84, 69, 83, 84])
    ∧ chunkParse [0, 0, 0, 1, 116, 69, 83, 84, 9, 0, 0, 0, 0, 5] =
      .ok ([5], .unknown) :=
  ⟨(c9_unknown_chunk_dispatch [9] [84, 69, 83, 84] [0, 0, 0, 0] [5] rfl
      (by decide) rfl (by norm_num) (by decide)).1 rfl,
   (c9_unknown_chunk_dispatch [9] [116, 69, 83, 84] [0, 0, 0, 0] [5] rfl
      (by decide) rfl (by norm_num) (by decide)).2 rfl⟩

/-- C7 counterexample: a palette-indexed pixel whose index (1) equals the
palette's entry count (1) does not produce an error value returned to the
caller — pixel decoding panics (the slice `self.0[index * 3..][..3]` in
`Colors::get` is out of bounds). -/
theorem c7_counterexample :
    renderRow .palette 8 (some ⟨[10, 20, 30]⟩) 0 [0, 1] = .panic
    ∧ ¬ ∃ e, renderRow .palette 8 (some ⟨[10, 20, 30]⟩) 0 [0, 1] =
        Outcome.err e := by
  have h : renderRow .palette 8 (some ⟨[10, 20, 30]⟩) 0 [0, 1] = .panic := rfl
  refine ⟨h, ?_⟩
  rintro ⟨e, he⟩
  rw [h] at he
  exact Outcome.noConfusion he

/-- C7 (amended): a palette index at or beyond the palette's entry count
makes `Colors::get` panic (no colour is clamped or wrapped), and the panic
aborts the whole palette draw loop; no error value is returned to the
caller. -/
theorem c7_out_of_range_palette_panics :
    (∀ (colors : Colors) (idx : Nat), colors.data.length % 3 = 0 →
      colors.len ≤ idx → Colors.get colors idx = Option.none)
    ∧ (∀ (colors : Colors) (y : Nat) (pairs : List (Nat × Nat)) (x idx : Nat),
        (x, idx) ∈ pairs → Colors.get colors idx = Option.none →
        paletteDraws colors y pairs = .panic) := by
  constructor
  · intro colors idx h3 hle
    unfold Colors.get
    rw [if_neg]
    unfold Colors.len at hle
    omega
  · intro colors y pairs
    induction pairs with
    | nil =>
        intro x idx hmem hnone
        cases hmem
    | cons hd tl ih =>
        intro x idx hmem hnone
        obtain ⟨a, b⟩ := hd
        rcases List.mem_cons.mp hmem with heq | hmem2
        · injection heq with h1 h2
          subst h1
          subst h2
          simp only [paletteDraws]
          rw [hnone]
        · simp only [paletteDraws]
          cases hg : Colors.get colors b with
          | none => rfl
          | some c =>
              rw [ih x idx hmem2 hnone]

theorem c7_witness :
    Colors.get ⟨[10, 20, 30]⟩ 1 = Option.none
    ∧ paletteDraws ⟨[10, 20, 30]⟩ 0 [(0, 1)] = .panic :=
  ⟨c7_out_of_range_palette_panics.1 ⟨[10, 20, 30]⟩ 1 rfl (by decide),
   c7_out_of_range_palette_panics.2 ⟨[10, 20, 30]⟩ 0 [(0, 1)] 0 1
     (by decide) rfl⟩

/-- C8: evaluating the code at the failing input.  For a grayscale scanline
at `bits_per_pixel = 1` whose first (maximum-valued) field is 1, the decoder
draws intensity `1 / 2` — it divides by `2^bits_per_pixel`
(`max_grayscale = 2f32.powi(bits_per_pixel)`), not by `2^bits_per_pixel - 1`
as the claim (and the PNG standard) require, so the maximum field value maps
to 1/2, not to full intensity 1. -/
theorem c8_grayscale_divisor :
    renderRow .grayScale 1 Option.none 0 [0, 128] =
      .ok [(0, 0, qGray (1 / 2)), (1, 0, qGray 0), (2, 0, qGray 0),
        (3, 0, qGray 0), (4, 0, qGray 0), (5, 0, qGray 0), (6, 0, qGray 0),
        (7, 0, qGray 0)]
    ∧ qGray (1 / 2) ≠ qGray 1 := by
  constructor
  · show Outcome.ok ((List.enum (bitFields 1 [128])).map fun p =>
      (p.1, 0, qGray ((p.2 : ℚ) / 2 ^ 1))) = _
    norm_num [bitFields, bitsOfBytes, bitsOfByte, completeGroups,
      bitFieldValue, List.range, List.range.loop, List.enum, List.enumFrom,
      qGray]
  · intro hcontra
    have h2 : (1 / 2 : ℚ) = 1 := congrArg QColor.r hcontra
    norm_num at h2

/-- C10: for a palette-type image with no palette set, processing a complete
scanline (with a valid filter-type byte and a coherent previous buffer)
succeeds, emits no draw call, clears the current buffer and advances the
scanline index — the row is silently skipped. -/
theorem c10_missing_palette_skips_scanline (r : Renderer) (b : Nat)
    (hct : r.colorType = .palette) (hpal : r.palette = Option.none)
    (hhead : r.nextScanline.head? = some b) (hb : b ≤ 4)
    (hprev : r.prevScanline = [] ∨
      r.nextScanline.length ≤ r.prevScanline.length) :
    stepOutcome (processScanline r) = some ([], r.scanline + 1, []) := by
  have hfilter : ∃ f, rendererFilter ((r.bitsPerPixel + 7) / 8)
      r.prevScanline r.nextScanline = .ok f := by
    unfold rendererFilter
    rw [hhead]
    dsimp only
    interval_cases b
    · exact ⟨_, rfl⟩
    · exact ⟨_, rfl⟩
    · dsimp only [FilterType.tryFrom]
      by_cases hpe : r.prevScanline.isEmpty = true
      · rw [if_pos hpe]
        exact ⟨_, rfl⟩
      · rw [if_neg hpe]
        have hlen2 : (r.nextScanline.set 0 0).length ≤
            r.prevScanline.length := by
          rcases hprev with hp | hp
          · exact absurd (by rw [hp]; rfl) hpe
          · simp only [List.length_set]
            exact hp
        rw [if_pos hlen2]
        exact ⟨_, rfl⟩
    · exact ⟨_, rfl⟩
    · exact ⟨_, rfl⟩
  obtain ⟨f, hf⟩ := hfilter
  have hrow : renderRow r.colorType r.bitsPerPixel r.palette r.scanline f =
      .ok [] := by
    rw [hct, hpal]
    unfold renderRow
    by_cases hbpp : r.bitsPerPixel < 8
    · rw [if_pos hbpp]
    · rw [if_neg hbpp]
  unfold processScanline
  dsimp only
  rw [hf]
  dsimp only
  rw [hrow]
  rfl

theorem c10_witness :
    stepOutcome (processScanline
      ⟨1, 1, .palette, 8, .none, Option.none, 0, [0, 7], [], 3⟩) =
      some ([], 1, []) :=
  c10_missing_palette_skips_scanline
    ⟨1, 1, .palette, 8, .none, Option.none, 0, [0, 7], [], 3⟩ 0 rfl rfl rfl
    (by norm_num) (Or.inl rfl)

/-- C3 counterexample: a stream whose second `IHDR` chunk sits after the
`IEND` chunk decodes successfully — the loop returns `Ok` at `IEND` without
looking at the rest of the stream — although a second header chunk appears
later in the stream (first conjunct: those trailing bytes do parse as an
`IHDR` chunk), where the claim demands a `DuplicateHeader` failure. -/
theorem c3_counterexample :
    chunkParse ihdrChunkA = .ok ([], .ihdr 1 1 .eight .rgb .none)
    ∧ render unitPlteSink unitIdatSink ()
        (sigBytes ++ ihdrChunkA ++ iendChunk0 ++ ihdrChunkA) = .ok () := by
  refine ⟨rfl, ?_⟩
  unfold render
  rw [show pngSignature (sigBytes ++ ihdrChunkA ++ iendChunk0 ++ ihdrChunkA) =
    .ok (ihdrChunkA ++ iendChunk0 ++ ihdrChunkA, sigBytes) from rfl]
  dsimp only
  rw [show chunkParse (ihdrChunkA ++ iendChunk0 ++ ihdrChunkA) =
    .ok (iendChunk0 ++ ihdrChunkA, .ihdr 1 1 .eight .rgb .none) from rfl]
  dsimp only
  rw [show rendererNew 1 1 .eight .rgb .none =
    .ok ⟨1, 1, .rgb, 24, .none, Option.none, 0, [], [], 4⟩ from rfl]
  dsimp only
  exact renderLoop_iend _ _ _
    (show chunkParse (iendChunk0 ++ ihdrChunkA) = .ok (ihdrChunkA, .iend)
      from rfl)

/-- C3 (amended): if the first chunk after the signature parses as anything
other than `IHDR`, the decode fails with `MissingCritical("IHDR")`; and a
second `IHDR` chunk fails the decode with `DuplicateIhdr` whenever the chunk
loop actually reaches it — that is, whenever every chunk between the first
`IHDR` and it parses successfully and is passed through by the loop (`PLTE`,
ancillary, or an `IDAT` whose write into the decompressor succeeds; no
`IEND`, no parse failure, no failed `IDAT` write).  A second `IHDR` after the
`IEND` chunk is never seen (the loop has already returned `Ok`). -/
theorem c3_header_uniqueness :
    (∀ (σ : Type) (ps : σ → Colors → σ) (is : σ → List Nat → Except Error σ)
        (s : σ) (input data rest sig : List Nat) (c : Chunk),
      pngSignature input = .ok (data, sig) →
      chunkParse data = .ok (rest, c) →
      c.isIhdr = false →
      render ps is s input = .error (.missingCritical "IHDR"))
    ∧ (∀ (σ : Type) (ps : σ → Colors → σ) (is : σ → List Nat → Except Error σ)
        (s : σ) (data : List Nat),
      LeadsToIhdr ps is s data →
      renderLoop ps is s data = .error .duplicateIhdr) := by
  constructor
  · intro σ ps is s input data rest sig c hsig hchunk hihdr
    unfold render
    rw [hsig]
    dsimp only
    rw [hchunk]
    dsimp only
    cases c
    case ihdr => simp [Chunk.isIhdr] at hihdr
    all_goals rfl
  · intro σ ps is s data hlead
    induction hlead with
    | here s d rest w hh bd ct il h => exact renderLoop_ihdr ps is s h
    | plteStep s d rest colors h htail ih =>
        rw [renderLoop_plte ps is s h]
        exact ih
    | idatStep s d rest bytes s2 h hs htail ih =>
        rw [renderLoop_idat_ok ps is s h hs]
        exact ih
    | unknownStep s d rest h htail ih =>
        rw [renderLoop_unknown ps is s h]
        exact ih

theorem c3_witness :
    render unitPlteSink unitIdatSink () (sigBytes ++ iendChunk0) =
      .error (.missingCritical "IHDR")
    ∧ renderLoop unitPlteSink unitIdatSink () (idatChunk0 ++ ihdrChunkA) =
      .error .duplicateIhdr :=
  ⟨c3_header_uniqueness.1 Unit unitPlteSink unitIdatSink ()
      (sigBytes ++ iendChunk0) iendChunk0 [] sigBytes .iend rfl rfl rfl,
   c3_header_uniqueness.2 Unit unitPlteSink unitIdatSink ()
     (idatChunk0 ++ ihdrChunkA)
     (LeadsToIhdr.idatStep () (idatChunk0 ++ ihdrChunkA) ihdrChunkA [] () rfl
       rfl
       (LeadsToIhdr.here () ihdrChunkA [] 1 1 .eight .rgb .none rfl))⟩

/-- C4 counterexample: unconsumed bytes remain after the `IEND` chunk (a
trailing `0xFF`), yet the decode succeeds — the loop returns `Ok` at `IEND`
without checking that the input is exhausted — where the claim demands a
structural failure. -/
theorem c4_counterexample :
    render unitPlteSink unitIdatSink ()
      (sigBytes ++ ihdrChunkA ++ iendChunk0 ++ [255]) = .ok () := by
  unfold render
  rw [show pngSignature (sigBytes ++ ihdrChunkA ++ iendChunk0 ++ [255]) =
    .ok (ihdrChunkA ++ iendChunk0 ++ [255], sigBytes) from rfl]
  dsimp only
  rw [show chunkParse (ihdrChunkA ++ iendChunk0 ++ [255]) =
    .ok (iendChunk0 ++ [255], .ihdr 1 1 .eight .rgb .none) from rfl]
  dsimp only
  rw [show rendererNew 1 1 .eight .rgb .none =
    .ok ⟨1, 1, .rgb, 24, .none, Option.none, 0, [], [], 4⟩ from rfl]
  dsimp only
  exact renderLoop_iend _ _ _
    (show chunkParse (iendChunk0 ++ [255]) = .ok ([255], .iend) from rfl)

/-- C4 (amended): an `IEND` chunk body that is not empty makes the chunk-body
parse fail with `InvalidIEnd`; inside the chunk loop any chunk-parse failure
(including that one) is swallowed by the un-`finish`ed iterator and the
decode fails with `MissingCritical("IEND")` instead; and once a well-formed
`IEND` chunk is reached the decode returns success immediately, ignoring any
unconsumed input after it. -/
theorem c4_end_chunk_behavior :
    (∀ body : List Nat, body ≠ [] → iendParse body = .error .invalidIEnd)
    ∧ (∀ (σ : Type) (ps : σ → Colors → σ)
        (is : σ → List Nat → Except Error σ) (s : σ) (data rest : List Nat),
        chunkParse data = .ok (rest, .iend) →
        renderLoop ps is s data = .ok ())
    ∧ (∀ (σ : Type) (ps : σ → Colors → σ)
        (is : σ → List Nat → Except Error σ) (s : σ) (data : List Nat)
        (e : Error),
        chunkParse data = .error e →
        renderLoop ps is s data = .error (.missingCritical "IEND")) := by
  refine ⟨?_, ?_, ?_⟩
  · intro body hne
    unfold iendParse
    rw [if_neg hne]
  · intro σ ps is s data rest h
    exact renderLoop_iend ps is s h
  · intro σ ps is s data e h
    exact renderLoop_parse_error ps is s h

theorem c4_witness :
    iendParse [1] = .error .invalidIEnd
    ∧ renderLoop unitPlteSink unitIdatSink () (iendChunk0 ++ [7]) = .ok ()
    ∧ renderLoop unitPlteSink unitIdatSink () [] =
        .error (.missingCritical "IEND") :=
  ⟨c4_end_chunk_behavior.1 [1] (by decide),
   c4_end_chunk_behavior.2.1 Unit unitPlteSink unitIdatSink ()
     (iendChunk0 ++ [7]) [7] rfl,
   c4_end_chunk_behavior.2.2 Unit unitPlteSink unitIdatSink () [] .nomFailed
     rfl⟩

/-! ### C1: the filter round-trip -/

theorem getD_lt_256 {l : List Nat} (h : ∀ x ∈ l, x < 256) (j : Nat) :
    l.getD j 0 < 256 := by
  by_cases hj : j < l.length
  · rw [List.getD_eq_getElem l 0 hj]
    exact h _ (List.getElem_mem hj)
  · rw [List.getD_eq_default l 0 (by omega)]
    norm_num

theorem getD_map_range (f : Nat → Nat) {n j : Nat} (h : j < n) :
    ((List.range n).map f).getD j 0 = f j := by
  rw [List.getD_eq_getElem _ 0 (by simpa using h)]
  simp

theorem length_mixUpTo (k : Nat) (line filt : List Nat) :
    (mixUpTo k line filt).length = line.length := by
  simp [mixUpTo]

theorem getD_mixUpTo (k : Nat) (line filt : List Nat) {j : Nat}
    (h : j < line.length) :
    (mixUpTo k line filt).getD j 0 =
      if j ≤ k then line.getD j 0 else filt.getD j 0 :=
  getD_map_range _ h

theorem mixUpTo_zero (line filt : List Nat) (hlen : filt.length = line.length)
    (hhead : filt.getD 0 0 = line.getD 0 0) : mixUpTo 0 line filt = filt := by
  apply List.ext_getElem (by simp [mixUpTo, hlen])
  intro i hi1 hi2
  have hil : i < line.length := by simpa [mixUpTo] using hi1
  simp only [mixUpTo, List.getElem_map, List.getElem_range]
  by_cases h0 : i ≤ 0
  · have hz : i = 0 := by omega
    subst hz
    rw [if_pos (by omega), ← hhead]
    exact List.getD_eq_getElem filt 0 (by omega)
  · rw [if_neg h0]
    exact List.getD_eq_getElem filt 0 (by omega)

/-- The common shape of the four defiltering loops of `Renderer::filter`: a
left-to-right in-place pass adding a predictor that only reads already
reconstructed bytes (and the previous scanline).  If the buffer contents are
the forward-filtered bytes of `line`, the pass reconstructs `line`. -/
theorem defilterFold (pred : List Nat → Nat → Nat) (line filt : List Nat)
    (hlen : filt.length = line.length)
    (hhead : filt.getD 0 0 = line.getD 0 0)
    (hline : ∀ j, line.getD j 0 < 256)
    (hlocal : ∀ (a : List Nat) (i : Nat), 0 < i → i < line.length →
        a.length = line.length → (∀ j, j < i → a.getD j 0 = line.getD j 0) →
        pred a i = pred line i)
    (hbound : ∀ i, pred line i ≤ 256)
    (hfilt : ∀ i, 0 < i → i < line.length →
        filt.getD i 0 = (line.getD i 0 + 256 - pred line i) % 256) :
    (loopIdx filt.length).foldl
      (fun a i => a.set i ((a.getD i 0 + pred a i) % 256)) filt = line := by
  unfold loopIdx
  rcases Nat.eq_zero_or_pos line.length with hz | hpos
  · have hfz : filt = [] := List.length_eq_zero.mp (by omega)
    have hlz : line = [] := List.length_eq_zero.mp hz
    subst hfz
    subst hlz
    rfl
  · have key : ∀ k, k < line.length →
        (List.range' 1 k).foldl
          (fun a i => a.set i ((a.getD i 0 + pred a i) % 256)) filt =
          mixUpTo k line filt := by
      intro k
      induction k with
      | zero =>
          intro _
          simp only [List.range'_zero, List.foldl_nil]
          exact (mixUpTo_zero line filt hlen hhead).symm
      | succ k ih =>
          intro hk
          rw [List.range'_concat, List.foldl_append, ih (by omega)]
          simp only [List.foldl_cons, List.foldl_nil]
          rw [show 1 + 1 * k = k + 1 from by omega]
          have hgd : (mixUpTo k line filt).getD (k + 1) 0 =
              filt.getD (k + 1) 0 := by
            rw [getD_mixUpTo k line filt hk, if_neg (by omega)]
          have hpr : pred (mixUpTo k line filt) (k + 1) = pred line (k + 1) := by
            apply hlocal _ _ (by omega) (by omega) (length_mixUpTo k line filt)
            intro j hj
            rw [getD_mixUpTo k line filt (by omega), if_pos (by omega)]
          rw [hgd, hpr]
          have hval : (filt.getD (k + 1) 0 + pred line (k + 1)) % 256 =
              line.getD (k + 1) 0 := by
            rw [hfilt (k + 1) (by omega) (by omega)]
            have h1 := hline (k + 1)
            have h2 := hbound (k + 1)
            omega
          rw [hval]
          apply List.ext_getElem (by simp [mixUpTo])
          intro i hi1 hi2
          have hil : i < line.length := by simpa [mixUpTo] using hi2
          rw [List.getElem_set]
          by_cases hik : k + 1 = i
          · subst hik
            rw [if_pos rfl]
            simp only [mixUpTo, List.getElem_map, List.getElem_range]
            rw [if_pos (by omega)]
          · rw [if_neg hik]
            simp only [mixUpTo, List.getElem_map, List.getElem_range]
            by_cases hle : i ≤ k
            · rw [if_pos hle, if_pos (by omega)]
            · rw [if_neg hle, if_neg (by omega)]
    have hfin := key (line.length - 1) (by omega)
    rw [hlen, hfin]
    apply List.ext_getElem (by simp [mixUpTo])
    intro i hi1 hi2
    have hil : i < line.length := by simpa [mixUpTo] using hi1
    simp only [mixUpTo, List.getElem_map, List.getElem_range]
    rw [if_pos (by omega)]
    exact List.getD_eq_getElem line 0 hil

theorem tryFrom_code (ft : FilterType) : FilterType.tryFrom ft.code = .ok ft := by
  cases ft <;> rfl

theorem forwardFilter_set_zero (ft : FilterType) (bpp : Nat)
    (prev raw : List Nat) :
    (forwardFilter ft bpp prev raw).set 0 0 =
      0 :: (List.range raw.length).map (fun j =>
        ((0 :: raw).getD (j + 1) 0 + 256 -
          specPredictor ft bpp prev (0 :: raw) (j + 1)) % 256) := rfl

theorem forwardFilter_length (ft : FilterType) (bpp : Nat)
    (prev raw : List Nat) :
    (forwardFilter ft bpp prev raw).length = raw.length + 1 := by
  simp [forwardFilter]

/-- When the predictor vanishes on the whole row, the forward-filtered
samples are the raw bytes themselves. -/
theorem forward_set_eq_of_predictor_zero (ft : FilterType) (bpp : Nat)
    (prev raw : List Nat) (hraw : ∀ x ∈ raw, x < 256)
    (hzero : ∀ j, j < raw.length →
      specPredictor ft bpp prev (0 :: raw) (j + 1) = 0) :
    (forwardFilter ft bpp prev raw).set 0 0 = 0 :: raw := by
  rw [forwardFilter_set_zero]
  congr 1
  apply List.ext_getElem (by simp)
  intro j hj1 hj2
  have hjn : j < raw.length := by simpa using hj1
  simp only [List.getElem_map, List.getElem_range]
  rw [hzero j hjn]
  simp only [List.getD_cons_succ]
  rw [List.getD_eq_getElem raw 0 hjn]
  have hx : raw[j] < 256 := hraw _ (List.getElem_mem hjn)
  omega

/-- Each defiltering loop of `Renderer::filter`, run on the forward-filtered
scanline, reconstructs the raw scanline, provided the loop's predictor agrees
with the spec predictor on the reconstructed line, reads only already
reconstructed bytes, and stays below 256. -/
theorem defilterFold_forward (ft : FilterType) (bpp : Nat)
    (prev raw : List Nat) (pred : List Nat → Nat → Nat)
    (hpredspec : ∀ i, 0 < i → i < raw.length + 1 →
      pred (0 :: raw) i = specPredictor ft bpp prev (0 :: raw) i)
    (hlocal : ∀ (a : List Nat) (i : Nat), 0 < i → i < raw.length + 1 →
        a.length = raw.length + 1 →
        (∀ j, j < i → a.getD j 0 = (0 :: raw).getD j 0) →
        pred a i = pred (0 :: raw) i)
    (hbound : ∀ i, pred (0 :: raw) i ≤ 256)
    (hraw : ∀ x ∈ raw, x < 256) :
    (loopIdx ((forwardFilter ft bpp prev raw).set 0 0).length).foldl
      (fun a i => a.set i ((a.getD i 0 + pred a i) % 256))
      ((forwardFilter ft bpp prev raw).set 0 0) = 0 :: raw := by
  rw [forwardFilter_set_zero]
  apply defilterFold pred (0 :: raw)
  · simp
  · rfl
  · intro j
    cases j with
    | zero => norm_num
    | succ j =>
        simp only [List.getD_cons_succ]
        exact getD_lt_256 hraw j
  · exact fun a i h1 h2 h3 h4 =>
      hlocal a i h1 (by simpa using h2) (by simpa using h3) h4
  · exact hbound
  · intro i hi0 hin
    cases i with
    | zero => omega
    | succ j =>
        simp only [List.getD_cons_succ]
        rw [getD_map_range _ (by simpa using hin)]
        rw [hpredspec (j + 1) (by omega) (by simpa using hin)]

/-- C1: for every filter type, every bytes-per-pixel value (these are always
positive), every previous reconstructed scanline (same stride, leading byte
zeroed, byte-valued) or its absence on the first row, and every raw scanline
content, the forward PNG filter followed by `Renderer::filter`'s reverse
reconstruction returns the original raw bytes exactly (behind the zeroed
filter-byte slot). -/
theorem c1_filter_roundtrip (filterType : FilterType) (bpp : Nat)
    (prev raw : List Nat) (hbpp : 0 < bpp)
    (hraw : ∀ x ∈ raw, x < 256)
    (hprev : prev = [] ∨ (prev.length = raw.length + 1 ∧ prev.getD 0 0 = 0 ∧
      ∀ x ∈ prev, x < 256)) :
    rendererFilter bpp prev (forwardFilter filterType bpp prev raw) =
      .ok (0 :: raw) := by
  have hlineD : ∀ j, (0 :: raw).getD j 0 < 256 := by
    intro j
    cases j with
    | zero => norm_num
    | succ j =>
        simp only [List.getD_cons_succ]
        exact getD_lt_256 hraw j
  have hprevD : ∀ j, prev.getD j 0 < 256 := by
    rcases hprev with hp | ⟨_, _, h3⟩
    · intro j
      rw [hp, List.getD_eq_default _ _ (by simp)]
      norm_num
    · exact getD_lt_256 h3
  unfold rendererFilter
  rw [show (forwardFilter filterType bpp prev raw).head? =
    some filterType.code from rfl]
  dsimp only
  rw [tryFrom_code]
  dsimp only
  cases filterType with
  | none =>
      refine congrArg Outcome.ok ?_
      exact forward_set_eq_of_predictor_zero .none bpp prev raw hraw
        (fun j _ => rfl)
  | sub =>
      refine congrArg Outcome.ok ?_
      exact defilterFold_forward .sub bpp prev raw
        (fun a i => a.getD (i - bpp) 0)
        (fun i _ _ => rfl)
        (fun a i hi0 hin hal hag => hag (i - bpp) (by omega))
        (fun i => le_of_lt (hlineD (i - bpp)))
        hraw
  | up =>
      rcases hprev with hp | ⟨hplen, _, _⟩
      · subst hp
        rw [if_pos (show List.isEmpty ([] : List Nat) = true from rfl)]
        refine congrArg Outcome.ok ?_
        exact forward_set_eq_of_predictor_zero .up bpp [] raw hraw
          (fun j _ => rfl)
      · have hne : prev ≠ [] := by
          intro hc
          rw [hc] at hplen
          simp at hplen
        have hie : prev.isEmpty = false := List.isEmpty_eq_false.mpr hne
        rw [if_neg (by rw [hie]; exact Bool.false_ne_true)]
        have hclen : ((forwardFilter FilterType.up bpp prev raw).set 0
            0).length ≤ prev.length := by
          rw [List.length_set, forwardFilter_length, hplen]
        rw [if_pos hclen]
        refine congrArg Outcome.ok ?_
        exact defilterFold_forward .up bpp prev raw
          (fun a i => prev.getD i 0)
          (fun i _ _ => rfl)
          (fun a i _ _ _ _ => rfl)
          (fun i => le_of_lt (hprevD i))
          hraw
  | average =>
      refine congrArg Outcome.ok ?_
      exact defilterFold_forward .average bpp prev raw
        (fun a i => ((a.getD (i - bpp) 0 + prev.getD i 0) / 2) % 256)
        (fun i _ _ => by
          have h1 := hlineD (i - bpp)
          have h2 := hprevD i
          show ((0 :: raw).getD (i - bpp) 0 + prev.getD i 0) / 2 % 256 = _
          rw [Nat.mod_eq_of_lt (by omega)]
          rfl)
        (fun a i hi0 hin hal hag => by
          dsimp only
          rw [hag (i - bpp) (by omega)])
        (fun i => le_of_lt (Nat.mod_lt _ (by norm_num)))
        hraw
  | paeth =>
      refine congrArg Outcome.ok ?_
      exact defilterFold_forward .paeth bpp prev raw
        (fun a i => paethPredict (a.getD (i - bpp) 0) (prev.getD i 0)
          (prev.getD (i - bpp) 0))
        (fun i _ _ => rfl)
        (fun a i hi0 hin hal hag => by
          dsimp only
          rw [hag (i - bpp) (by omega)])
        (fun i => by
          unfold paethPredict
          exact le_of_lt (Nat.mod_lt _ (by norm_num)))
        hraw

theorem c1_witness :
    rendererFilter 1 [0, 9] (forwardFilter .paeth 1 [0, 9] [7]) =
      .ok [0, 7] :=
  c1_filter_roundtrip .paeth 1 [0, 9] [7] (by norm_num) (by decide)
    (Or.inr ⟨rfl, rfl, by decide⟩)

end PngViewer
